import Mathlib

/-!
Verification of the msticpy subset: `msticpy/vis/entity_graph_tools.py`
(the `EntityGraph` builder) and
`msticpy/context/tiproviders/ti_provider_base.py` (the `TIProvider` base
class), shallowly embedded in Lean.

The graph is modelled after `networkx.Graph`: nodes keyed by a name string
carrying an attribute record, and undirected edges without attributes.
Python methods that mutate `self` and may raise become functions returning
the resulting graph together with an optional error (an exception leaves
the partially mutated object in place, so the state component is always
meaningful).
-/

namespace Msticpy

/-- Node attributes used by `entity_graph_tools` (`Name`, `Description`,
`Type`, `TimeGenerated`, `StartTime`, `EndTime`); a `none` field models an
absent key in the networkx attribute dict. Attribute values are modelled
as strings (the datamodel stores stringified values on graph nodes). -/
structure NodeAttrs where
  Name : Option String := none
  Description : Option String := none
  Type' : Option String := none
  TimeGenerated : Option String := none
  StartTime : Option String := none
  EndTime : Option String := none
deriving DecidableEq, Repr

/-- A networkx-style undirected graph: nodes are (key, attributes) pairs,
keys unique; edges are unordered pairs of keys, stored once. -/
structure Graph where
  nodes : List (String × NodeAttrs) := []
  edges : List (String × String) := []
deriving DecidableEq, Repr

def emptyGraph : Graph := {}

/-- Membership test `name in graph.nodes()`. -/
def hasNode (g : Graph) (name : String) : Bool :=
  g.nodes.any (fun p => p.1 == name)

/-- Number of nodes stored under a given key (uniqueness holds for graphs
built by the API, and the claims talk about "exactly one node"). -/
def countNodes (g : Graph) (name : String) : Nat :=
  (g.nodes.filter (fun p => p.1 == name)).length

/-- Test `graph.has_edge(s, t)`: undirected, so either orientation matches. -/
def hasEdge (g : Graph) (s t : String) : Bool :=
  g.edges.any (fun e => (e.1 == s && e.2 == t) || (e.1 == t && e.2 == s))

/-- How many stored edge entries realize the undirected edge (s, t);
a well-formed networkx graph stores an edge once. -/
def edgeCount (g : Graph) (s t : String) : Nat :=
  (g.edges.filter
    (fun e => (e.1 == s && e.2 == t) || (e.1 == t && e.2 == s))).length

/-- Model of `graph.add_edge(s, t)` on a networkx `Graph`: a no-op (no attributes
here) when the undirected edge already exists, otherwise the edge is
stored once. -/
def addEdge (g : Graph) (s t : String) : Graph :=
  if hasEdge g s t then g else { g with edges := g.edges ++ [(s, t)] }

/-- Model of `graph.remove_edge(s, t)`: drops the undirected edge. -/
def removeEdge (g : Graph) (s t : String) : Graph :=
  { g with
    edges := g.edges.filter
      (fun e => !((e.1 == s && e.2 == t) || (e.1 == t && e.2 == s))) }

/-- Python `dict.update` on attribute dicts: keys present in `new`
override, keys absent in `new` keep the old value. -/
def mergeAttrs (old new : NodeAttrs) : NodeAttrs :=
  { Name := new.Name.orElse fun _ => old.Name
    Description := new.Description.orElse fun _ => old.Description
    Type' := new.Type'.orElse fun _ => old.Type'
    TimeGenerated := new.TimeGenerated.orElse fun _ => old.TimeGenerated
    StartTime := new.StartTime.orElse fun _ => old.StartTime
    EndTime := new.EndTime.orElse fun _ => old.EndTime }

/-- Insert one node as `nx.compose` does: an existing node keeps its key
and has its attribute dict updated (right graph wins per key), a new node
is appended. -/
def upsertNode (g : Graph) (key : String) (attrs : NodeAttrs) : Graph :=
  if hasNode g key then
    { g with
      nodes := g.nodes.map
        (fun p => if p.1 == key then (p.1, mergeAttrs p.2 attrs) else p) }
  else { g with nodes := g.nodes ++ [(key, attrs)] }

/-- Model of `nx.compose(g, h)`: node set union with attributes of `h` taking
precedence per key, edge set union. -/
def compose (g h : Graph) : Graph :=
  let g' := h.nodes.foldl (fun acc p => upsertNode acc p.1 p.2) g
  h.edges.foldl (fun acc e => addEdge acc e.1 e.2) g'

/-- The errors `entity_graph_tools` raises (`MsticpyUserError` titles). -/
inductive GraphError where
  /-- Error of `add_link` (title `Node(s) ... not found in graph`) with the list of
  the absent endpoint names. -/
  | missingNodes (missing : List String)
  /-- Error of `remove_link` (title `No edge exists between source and target`). -/
  | missingEdge (source target : String)
deriving DecidableEq, Repr

/-- Embeds `EntityGraph.add_link`: if both names are in the graph add the edge,
otherwise raise naming exactly the absent name(s), leaving the graph
untouched. -/
def add_link (g : Graph) (source target : String) : Graph × Option GraphError :=
  if hasNode g source && hasNode g target then
    (addEdge g source target, none)
  else
    (g, some (.missingNodes ([source, target].filter (fun n => !hasNode g n))))

/-- Embeds `EntityGraph.remove_link`: remove the edge when both endpoints and the
edge exist, otherwise raise a missing-edge error. -/
def remove_link (g : Graph) (source target : String) : Graph × Option GraphError :=
  if hasNode g source && hasNode g target && hasEdge g source target then
    (removeEdge g source target, none)
  else
    (g, some (.missingEdge source target))

/-- Sequencing of mutating calls: a raised exception aborts the rest of
the method body but keeps the state mutated so far. -/
def bindE (p : Graph × Option GraphError)
    (f : Graph → Graph × Option GraphError) : Graph × Option GraphError :=
  match p with
  | (g, some e) => (g, some e)
  | (g, none) => f g

/-- The attribute record stored under a node key, when present
(`graph.nodes[key]`). -/
def attrsOf (g : Graph) (name : String) : Option NodeAttrs :=
  (g.nodes.find? (fun p => p.1 == name)).map (fun p => p.2)

/-- The attribute dict `add_note` passes to `add_node`: `Name=name`,
`Description=description`, `Type="analystnote"`,
`TimeGenerated=datetime.now()` (passed in as `now`). -/
def noteAttrs (name : String) (description : Option String)
    (now : String) : NodeAttrs :=
  { Name := some name, Description := description,
    Type' := some "analystnote", TimeGenerated := some now }

/-- The `add_node` call of `EntityGraph.add_note`: store the note
attributes under `name`; for an existing key, update its dict with them
(the `Description` key is written even when its value is `None`). -/
def addNoteNode (g : Graph) (name : String) (description : Option String)
    (now : String) : Graph :=
  if hasNode g name then
    { g with
      nodes := g.nodes.map
        (fun p =>
          if p.1 == name then
            (p.1, { mergeAttrs p.2 (noteAttrs name description now) with
                      Description := description })
          else p) }
  else { g with nodes := g.nodes ++ [(name, noteAttrs name description now)] }

/-- The `for link in attached_to: self.add_link(name, link)` loop of
`add_note`: link the note to each target in order, aborting at the first
failure. -/
def linkAll (g : Graph) (name : String) (targets : List String) :
    Graph × Option GraphError :=
  targets.foldl (fun acc link => bindE acc (fun g => add_link g name link))
    (g, none)

/-- Embeds `EntityGraph.add_note`: unconditionally add (or update) the note node,
then link it to each `attached_to` target in order; the first failing
`add_link` raises, aborting the loop. A `None` or empty `attached_to` is
the empty list. -/
def add_note (g : Graph) (name : String) (description : Option String)
    (attached_to : List String) (now : String) : Graph × Option GraphError :=
  linkAll (addNoteNode g name description now) name attached_to

/-- An entity of the msticpy datamodel as the graph builder sees it:
`name_str` identity string and the Python `hash(ent)` content hash used by
`_dedupe_entities`. Equality (Python `==`, used by `list.remove`) is the
derived structural equality. -/
structure PyEntity where
  name_str : String
  phash : Int
deriving DecidableEq, Repr

/-- An alert: `name_str` plus its `Entities` list (Python `None` is the
empty list, which `if alert["Entities"]:` treats identically). -/
structure PyAlert where
  name_str : String
  Entities : List PyEntity
deriving DecidableEq, Repr

/-- An incident: `name_str`, its `Alerts` and its directly attached
`Entities`. -/
structure PyIncident where
  name_str : String
  Alerts : List PyAlert
  Entities : List PyEntity
deriving DecidableEq, Repr

/-- Modelled from the spec: `Entity.to_networkx` (datamodel code, not
under src/) exposes the entity as a graph fragment; modelled as the single
node keyed by its `name_str` ("a `.name` identity string"; an entity's own
sub-entity edges are not relevant to the claims). -/
def entityToNetworkx (e : PyEntity) : Graph :=
  { nodes := [(e.name_str, { Name := some e.name_str, Type' := some "entity" })] }

/-- Modelled from the spec: `Alert.to_networkx` produces the alert's own
node keyed by `name_str`. -/
def alertToNetworkx (a : PyAlert) : Graph :=
  { nodes := [(a.name_str, { Name := some a.name_str, Type' := some "alert" })] }

/-- Modelled from the spec: `Incident.to_networkx` produces the incident's
own node keyed by `name_str`. -/
def incidentToNetworkx (i : PyIncident) : Graph :=
  { nodes := [(i.name_str, { Name := some i.name_str, Type' := some "incident" })] }

/-- Python `list.remove(e)`: drop the first element equal to `e` (the
`ValueError` case cannot arise in `_dedupe_entities`, where `e` is read
from the list). -/
def removeFirst : List PyEntity → PyEntity → List PyEntity
  | [], _ => []
  | x :: xs, e => if x = e then xs else x :: removeFirst xs e

/-- The loop `for ent in ents: if hash(ent) in alert_entities:
ents.remove(ent)` of `_dedupe_entities`, with CPython iterator semantics:
the iterator keeps an index that advances each step regardless of
removals, so removing the current element shifts its successor into the
slot the iterator has already passed. `fuel` bounds the iteration count;
starting it at the original list length is exact because the index grows
by one per step while the length never grows. -/
def forRemoveLoop (hashes : List Int) :
    Nat → List PyEntity → Nat → List PyEntity
  | 0, ents, _ => ents
  | fuel + 1, ents, i =>
    if h : i < ents.length then
      let e := ents.get ⟨i, h⟩
      if e.phash ∈ hashes then forRemoveLoop hashes fuel (removeFirst ents e) (i + 1)
      else forRemoveLoop hashes fuel ents (i + 1)
    else ents

/-- The `alert_entities` list `_dedupe_entities` builds: the hashes of
every entity of every alert, in order. -/
def alertEntityHashes (alerts : List PyAlert) : List Int :=
  alerts.foldl (fun acc a => acc ++ a.Entities.map (fun e => e.phash)) []

/-- Embeds `_dedupe_entities(alerts, ents)`: collect the hashes of all entities
of all alerts, then run the remove loop over `ents`. Returns the final
value of `ents` — which in Python is the caller's list, mutated in
place. -/
def dedupeEntities (alerts : List PyAlert) (ents : List PyEntity) : List PyEntity :=
  forRemoveLoop (alertEntityHashes alerts) ents.length ents 0

/-- Because `_dedupe_entities` mutates `incident.Entities` in place
(`ents.remove`), after `EntityGraph._add_incident_node(incident)` the
caller's incident object holds the deduplicated list. -/
def incidentAfterAdd (inc : PyIncident) : PyIncident :=
  { inc with Entities := dedupeEntities inc.Alerts inc.Entities }

/-- Embeds `EntityGraph._add_entity_node`: compose the fragment of the entity into the
graph and, when `attached_to` is given, link it. -/
def addEntityNode (g : Graph) (ent : PyEntity) (attached_to : Option String) :
    Graph × Option GraphError :=
  let g := compose g (entityToNetworkx ent)
  match attached_to with
  | none => (g, none)
  | some a => add_link g a ent.name_str

/-- Embeds `EntityGraph._add_alert_node`: compose the fragment of the alert, insert
each of its entities linked to the alert, then link the alert to the
incident when `incident_name` is given. -/
def addAlertNode (g : Graph) (alert : PyAlert) (incident_name : Option String) :
    Graph × Option GraphError :=
  let g := compose g (alertToNetworkx alert)
  let res := alert.Entities.foldl
    (fun acc e => bindE acc (fun g => addEntityNode g e (some alert.name_str)))
    (g, none)
  bindE res (fun g =>
    match incident_name with
    | none => (g, none)
    | some n => add_link g n alert.name_str)

/-- Embeds `EntityGraph._add_incident_node`: compose the fragment of the incident,
insert each alert linked to the incident, then insert the incident's
direct entities after deduplication against the alert entities, each
linked to the incident. -/
def addIncidentNode (g : Graph) (inc : PyIncident) : Graph × Option GraphError :=
  let g := compose g (incidentToNetworkx inc)
  let res := inc.Alerts.foldl
    (fun acc a => bindE acc (fun g => addAlertNode g a (some inc.name_str)))
    (g, none)
  bindE res (fun g =>
    let entities := dedupeEntities inc.Alerts inc.Entities
    entities.foldl
      (fun acc e => bindE acc (fun g => addEntityNode g e (some inc.name_str)))
      (g, none))

/-- A `datetime` as `to_df` cares about it: an opaque naive timestamp
value plus `tzinfo`, modelled as an optional UTC offset in minutes
(`none` = naive, `some 0` = `timezone.utc`). -/
structure DateTimeTz where
  stamp : Nat
  tzinfo : Option Int
deriving DecidableEq, Repr

/-- Embeds `_convert_to_tz_aware_ts(date_string)`: `None` stays `None`; otherwise
the string is parsed (`dateutil.parser.parse`, an external library passed
in as the `parse` parameter) and, when the result is naive, its `tzinfo`
is replaced by UTC. -/
def convertToTzAwareTs (parse : String → DateTimeTz) :
    Option String → Option DateTimeTz
  | none => none
  | some s =>
    let dt := parse s
    if dt.tzinfo = none then some { dt with tzinfo := some 0 } else some dt

/-- One row of the dataframe `EntityGraph.to_df` builds. -/
structure DFRow where
  Name : Option String
  Description : Option String
  Type' : Option String
  TimeGenerated : Option DateTimeTz
  EndTime : Option DateTimeTz
  StartTime : Option DateTimeTz
deriving DecidableEq, Repr

/-- Effect of `DataFrame.replace("None", np.nan)` on one cell: a cell holding
exactly the string `"None"` becomes a missing value. -/
def replaceNoneCell (c : Option String) : Option String :=
  if c = some "None" then none else c

/-- The row `to_df` builds for one node's attributes: `StartTime` falls
back to `TimeGenerated` when absent (`node.get("StartTime",
node.get("TimeGenerated"))`), every time field goes through
`_convert_to_tz_aware_ts`, and the final `replace("None", np.nan)` turns
literal `"None"` strings in the object-valued cells into missing
values. -/
def toDfRow (parse : String → DateTimeTz) (a : NodeAttrs) : DFRow :=
  { Name := replaceNoneCell a.Name
    Description := replaceNoneCell a.Description
    Type' := replaceNoneCell a.Type'
    TimeGenerated := convertToTzAwareTs parse a.TimeGenerated
    EndTime := convertToTzAwareTs parse a.EndTime
    StartTime := convertToTzAwareTs parse
      (a.StartTime.orElse fun _ => a.TimeGenerated) }

/-- Embeds `EntityGraph.to_df`: one row per node of the graph, in node order. -/
def toDf (parse : String → DateTimeTz) (g : Graph) : List DFRow :=
  g.nodes.map (fun p => toDfRow parse p.2)

/-- A concrete stand-in for `dateutil.parser.parse` used to instantiate
the generic statements: a string mentioning `Z` parses as UTC, anything
else as a naive datetime. -/
def sampleParse (s : String) : DateTimeTz :=
  if s.data.contains 'Z' then { stamp := s.length, tzinfo := some 0 }
  else { stamp := s.length, tzinfo := none }

/-- The all-missing dataframe row (default for positional access). -/
def noRow : DFRow :=
  { Name := none, Description := none, Type' := none,
    TimeGenerated := none, EndTime := none, StartTime := none }

end Msticpy

namespace Msticpy.TI

/-- Python `str.strip`-style sanitization used when preparing an
observable: drop whitespace from the raw value. Modelled from the spec:
the `Provider._check_item_type` implementation (class `Provider` in
`provider_base.py` is not under src/) "produces a sanitized/safe
representation of the raw item". -/
def preprocessObservable (item : String) : String :=
  String.mk (item.data.filter (fun c => !c.isWhitespace))

/-- Split a character list on the dot separator (the string machinery of
the classifier, kept as plain structural recursion). -/
def splitDot : List Char → List (List Char)
  | [] => [[]]
  | c :: cs =>
    if c = '.' then [] :: splitDot cs
    else
      match splitDot cs with
      | [] => [[c]]
      | p :: ps => (c :: p) :: ps

/-- Modelled from the spec: `resolve_item_type` / `resolve_ioc_type`, a
"static heuristic classifier (e.g., regex/format matching) mapping an
arbitrary string to a known observable type or an 'unknown' sentinel";
modelled as: dotted quad of digits → `ipv4`, anything else containing a
dot → `dns`, otherwise `unknown`. Deterministic and side-effect free. -/
def resolveItemType (observable : String) : String :=
  let parts := splitDot observable.data
  if parts.length == 4 && parts.all (fun p => !p.isEmpty && p.all Char.isDigit) then
    "ipv4"
  else if observable.data.contains '.' then "dns"
  else "unknown"

/-- The record `Provider._check_item_type` returns: the raw item, the
resolved type, the sanitized value and a status (non-zero on failure). -/
structure CheckItemResult where
  Item : String
  ItemType : String
  SanitizedValue : String
  Status : Int
deriving DecidableEq, Repr

/-- Modelled from the spec: `Provider._check_item_type(item, item_type,
query_subtype)` "infers type if absent, produces a sanitized/safe
representation of the raw item" and "fails (returns a non-zero status
field) if type inference cannot resolve a type and none was supplied";
failures are "encoded as a status field in the returned record rather
than raised" (the function is total). -/
def checkItemType (item : String) (item_type : Option String) : CheckItemResult :=
  match item_type with
  | some t =>
    { Item := item, ItemType := t,
      SanitizedValue := preprocessObservable item, Status := 0 }
  | none =>
    let t := resolveItemType item
    { Item := item, ItemType := t,
      SanitizedValue := preprocessObservable item,
      Status := if t == "unknown" then 1 else 0 }

/-- The record `TIProvider._check_ioc_type` returns after renaming the
fields of the base-class record and attaching the default severity. -/
structure CheckIocResult where
  Ioc : String
  IocType : String
  SafeIoc : String
  Severity : String
  Status : Int
deriving DecidableEq, Repr

/-- Embeds `TIProvider._check_ioc_type`: delegate to the base `_check_item_type`,
rename `Item`→`Ioc`, `ItemType`→`IocType`, `SanitizedValue`→`SafeIoc`, and
set `Severity` to `ResultSeverity.information.name`. -/
def checkIocType (ioc : String) (ioc_type : Option String) : CheckIocResult :=
  let r := checkItemType ioc ioc_type
  { Ioc := r.Item, IocType := r.ItemType, SafeIoc := r.SanitizedValue,
    Severity := "information", Status := r.Status }

/-- One result row of a lookup, as produced by a concrete provider's
per-item lookup (abstract in the base class). -/
structure LookupRow where
  Ioc : String
  IocType : Option String
  Success : Bool
  Details : String
deriving DecidableEq, Repr

/-- The three input shapes `lookup_iocs` accepts: a dataframe with an
item column and optional type column, a dict of item→type, or a bare
iterable of items. -/
inductive LookupInput where
  | dataframe (rows : List (String × Option String))
  | dict (entries : List (String × String))
  | seq (items : List String)
deriving DecidableEq, Repr

/-- The (item, supplied type) pairs an input denotes, in input order. -/
def inputPairs : LookupInput → List (String × Option String)
  | .dataframe rows => rows
  | .dict entries => entries.map (fun p => (p.1, some p.2))
  | .seq items => items.map (fun i => (i, none))

/-- The number of items (rows / entries / elements) in an input. -/
def inputLen : LookupInput → Nat
  | .dataframe rows => rows.length
  | .dict entries => entries.length
  | .seq items => items.length

/-- Modelled from the spec: `Provider.lookup_items` (class `Provider` is
not under src/) "iterates and aggregates per-item results into one
table-shaped result", one row per input item in input order, whether the
per-item lookup (`lookupOne`, the concrete backend) reports success or
failure. -/
def lookupItems (lookupOne : String → Option String → LookupRow)
    (data : LookupInput) : List LookupRow :=
  (inputPairs data).map (fun p => lookupOne p.1 p.2)

/-- Embeds `TIProvider.lookup_iocs`: delegates to `lookup_items` with the ioc
columns passed through. -/
def lookupIocs (lookupOne : String → Option String → LookupRow)
    (data : LookupInput) : List LookupRow :=
  lookupItems lookupOne data

end Msticpy.TI

namespace Msticpy.TI

/-- C5 — `_check_ioc_type` returns a record carrying the resolved type
(the supplied one, or the inferred one when none was supplied), the
sanitized form of the value, and `Severity` set to the default
`information` level; when no type was supplied and inference yields the
`unknown` sentinel, the record's status is non-zero (the function is
total — no exception path exists). -/
theorem c5_check_ioc_type_record (item : String) (itype : Option String) :
    (checkIocType item itype).Severity = "information" ∧
    (checkIocType item itype).SafeIoc = preprocessObservable item ∧
    (checkIocType item itype).IocType = itype.getD (resolveItemType item) ∧
    (itype = none → resolveItemType item = "unknown" →
      (checkIocType item itype).Status ≠ 0) ∧
    (itype ≠ none ∨ resolveItemType item ≠ "unknown" →
      (checkIocType item itype).Status = 0) := by
  cases itype with
  | none =>
    by_cases hu : resolveItemType item = "unknown" <;>
      simp [checkIocType, checkItemType, hu]
  | some t =>
    simp [checkIocType, checkItemType]

/-- Witness for C5: the whitespace-free unresolvable item `justtext` with
no supplied type yields a non-zero status. -/
theorem c5_check_ioc_type_record_witness :
    (checkIocType "justtext" none).Status ≠ 0 :=
  (c5_check_ioc_type_record "justtext" none).2.2.2.1 rfl (by decide)

lemma preprocessObservable_idem (s : String) :
    preprocessObservable (preprocessObservable s) = preprocessObservable s := by
  unfold preprocessObservable
  congr 1
  exact List.filter_eq_self.mpr fun a ha => (List.mem_filter.mp ha).2

/-- C6 — normalization is idempotent: feeding the sanitized value and the
resolved type of a `_check_ioc_type` record back through `_check_ioc_type`
returns the same resolved type and the same sanitized value. -/
theorem c6_check_ioc_type_idempotent (item : String) (itype : Option String) :
    (checkIocType (checkIocType item itype).SafeIoc
        (some (checkIocType item itype).IocType)).IocType
      = (checkIocType item itype).IocType ∧
    (checkIocType (checkIocType item itype).SafeIoc
        (some (checkIocType item itype).IocType)).SafeIoc
      = (checkIocType item itype).SafeIoc := by
  cases itype <;>
    simp [checkIocType, checkItemType, preprocessObservable_idem]

/-- C8 — `lookup_iocs` over any of the three input shapes produces exactly
one result row per input item, in input order, whatever row the per-item
lookup returns (success or failure). -/
theorem c8_lookup_iocs_row_per_item
    (lookupOne : String → Option String → LookupRow) (data : LookupInput) :
    (lookupIocs lookupOne data).length = inputLen data ∧
    (∀ i (hi : i < (inputPairs data).length)
        (hj : i < (lookupIocs lookupOne data).length),
      (lookupIocs lookupOne data).get ⟨i, hj⟩ =
        lookupOne ((inputPairs data).get ⟨i, hi⟩).1
          ((inputPairs data).get ⟨i, hi⟩).2) := by
  constructor
  · cases data <;> simp [lookupIocs, lookupItems, inputPairs, inputLen]
  · intro i hi hj
    simp [lookupIocs, lookupItems, List.get_map]

/-- Witness for C8: two bare items produce two rows, the first being the
lookup of the first item. -/
theorem c8_lookup_iocs_row_per_item_witness :
    (lookupIocs (fun i t => ⟨i, t, false, "no result"⟩)
        (LookupInput.seq ["1.2.3.4", "evil.com"])).length = 2 ∧
    (lookupIocs (fun i t => ⟨i, t, false, "no result"⟩)
        (LookupInput.seq ["1.2.3.4", "evil.com"])).get ⟨0, by decide⟩ =
      ⟨"1.2.3.4", none, false, "no result"⟩ :=
  ⟨(c8_lookup_iocs_row_per_item _ _).1,
   (c8_lookup_iocs_row_per_item (fun i t => ⟨i, t, false, "no result"⟩)
      (LookupInput.seq ["1.2.3.4", "evil.com"])).2 0 (by decide) (by decide)⟩

end Msticpy.TI

namespace Msticpy

lemma nodes_addEdge (g : Graph) (s t : String) :
    (addEdge g s t).nodes = g.nodes := by
  unfold addEdge; split <;> rfl

lemma hasNode_addEdge (g : Graph) (s t n : String) :
    hasNode (addEdge g s t) n = hasNode g n := by
  unfold hasNode; rw [nodes_addEdge]

lemma hasEdge_addEdge_self (g : Graph) (s t : String) :
    hasEdge (addEdge g s t) s t = true := by
  unfold addEdge
  split
  · assumption
  · simp [hasEdge, List.any_append]

lemma hasEdge_addEdge_mono (g : Graph) {a b : String} (s t : String)
    (h : hasEdge g a b = true) : hasEdge (addEdge g s t) a b = true := by
  unfold addEdge
  split
  · exact h
  · simp only [hasEdge, List.any_append, Bool.or_eq_true]
    exact Or.inl h

lemma hasEdge_removeEdge_self (g : Graph) (s t : String) :
    hasEdge (removeEdge g s t) s t = false := by
  simp only [hasEdge, removeEdge, List.any_eq_false, List.mem_filter]
  rintro e ⟨-, hkeep⟩
  simp only [Bool.not_eq_true'] at hkeep
  simp [hkeep]

lemma nodes_removeEdge (g : Graph) (s t : String) :
    (removeEdge g s t).nodes = g.nodes := rfl

lemma hasNode_removeEdge (g : Graph) (s t n : String) :
    hasNode (removeEdge g s t) n = hasNode g n := rfl

lemma nodes_add_link (g : Graph) (s t : String) :
    (add_link g s t).1.nodes = g.nodes := by
  unfold add_link
  split
  · exact nodes_addEdge g s t
  · rfl

lemma hasNode_add_link (g : Graph) (s t n : String) :
    hasNode (add_link g s t).1 n = hasNode g n := by
  unfold hasNode; rw [nodes_add_link]

lemma hasEdge_add_link_mono (g : Graph) {a b : String} (s t : String)
    (h : hasEdge g a b = true) : hasEdge (add_link g s t).1 a b = true := by
  unfold add_link
  split
  · exact hasEdge_addEdge_mono g s t h
  · exact h

lemma addEdge_of_hasEdge (g : Graph) {s t : String}
    (h : hasEdge g s t = true) : addEdge g s t = g := by
  simp [addEdge, h]

lemma edgeCount_addEdge (g : Graph) (s t : String)
    (h : hasEdge g s t = false) : edgeCount (addEdge g s t) s t = 1 := by
  have hnil :
      g.edges.filter
        (fun e => (e.1 == s && e.2 == t) || (e.1 == t && e.2 == s)) = [] := by
    rw [List.filter_eq_nil_iff]
    intro e he hmatch
    have : hasEdge g s t = true := by
      simp only [hasEdge, List.any_eq_true]
      exact ⟨e, he, hmatch⟩
    simp [this] at h
  simp [addEdge, h, edgeCount, List.filter_append, hnil]

/-- C3 — `add_link` adds the edge and succeeds when both names are in the
graph; otherwise it raises a user error naming exactly the absent names:
only the target when only the target is absent, only the source when only
the source is absent, and both when both are absent. -/
theorem c3_add_link_missing_names (g : Graph) (s t : String) :
    (hasNode g s = true → hasNode g t = true →
      add_link g s t = (addEdge g s t, none) ∧
      hasEdge (add_link g s t).1 s t = true) ∧
    (hasNode g s = true → hasNode g t = false →
      add_link g s t = (g, some (GraphError.missingNodes [t]))) ∧
    (hasNode g s = false → hasNode g t = true →
      add_link g s t = (g, some (GraphError.missingNodes [s]))) ∧
    (hasNode g s = false → hasNode g t = false →
      add_link g s t = (g, some (GraphError.missingNodes [s, t]))) := by
  refine ⟨fun h1 h2 => ?_, fun h1 h2 => ?_, fun h1 h2 => ?_, fun h1 h2 => ?_⟩ <;>
    simp [add_link, h1, h2, hasEdge_addEdge_self]

/-- Witness for C3: in the one-node graph holding only `X`, linking `X`
to the absent `Y` fails naming exactly `Y`. -/
theorem c3_add_link_missing_names_witness :
    add_link { nodes := [("X", {})] } "X" "Y" =
      ({ nodes := [("X", {})] }, some (GraphError.missingNodes ["Y"])) :=
  (c3_add_link_missing_names { nodes := [("X", {})] } "X" "Y").2.1
    (by decide) (by decide)

/-- C4 — for existing endpoints, calling `add_link` twice leaves exactly
the graph a single call leaves (one undirected edge); `remove_link` then
removes that edge and succeeds; a second `remove_link` raises a
missing-edge error, as does `remove_link` whenever the edge or either
endpoint does not exist. -/
theorem c4_add_remove_link_roundtrip (g : Graph) (s t : String) :
    (hasNode g s = true → hasNode g t = true →
      (add_link g s t).2 = none ∧
      hasEdge (add_link g s t).1 s t = true ∧
      add_link (add_link g s t).1 s t = ((add_link g s t).1, none) ∧
      (hasEdge g s t = false → edgeCount (add_link g s t).1 s t = 1) ∧
      (remove_link (add_link g s t).1 s t).2 = none ∧
      hasEdge (remove_link (add_link g s t).1 s t).1 s t = false ∧
      remove_link (remove_link (add_link g s t).1 s t).1 s t =
        ((remove_link (add_link g s t).1 s t).1,
          some (GraphError.missingEdge s t))) ∧
    ((hasNode g s = false ∨ hasNode g t = false ∨ hasEdge g s t = false) →
      remove_link g s t = (g, some (GraphError.missingEdge s t))) := by
  constructor
  · intro h1 h2
    have hadd : add_link g s t = (addEdge g s t, none) := by
      simp [add_link, h1, h2]
    rw [hadd]
    have hns : hasNode (addEdge g s t) s = true := by
      rw [hasNode_addEdge]; exact h1
    have hnt : hasNode (addEdge g s t) t = true := by
      rw [hasNode_addEdge]; exact h2
    have he : hasEdge (addEdge g s t) s t = true := hasEdge_addEdge_self g s t
    have hrem : remove_link (addEdge g s t) s t = (removeEdge (addEdge g s t) s t, none) := by
      simp [remove_link, hns, hnt, he]
    refine ⟨rfl, he, ?_, ?_, ?_, ?_, ?_⟩
    · simp [add_link, hns, hnt, addEdge_of_hasEdge _ he]
    · exact fun h0 => edgeCount_addEdge g s t h0
    · rw [hrem]
    · rw [hrem]; exact hasEdge_removeEdge_self (addEdge g s t) s t
    · rw [hrem]
      simp [remove_link, hasEdge_removeEdge_self]
  · intro h
    rcases h with h | h | h <;> simp [remove_link, h]

lemma forRemoveLoop_no_match (hashes : List Int) :
    ∀ (fuel : Nat) (ents : List PyEntity) (i : Nat),
      (∀ e ∈ ents, e.phash ∉ hashes) →
      forRemoveLoop hashes fuel ents i = ents
  | 0, _, _, _ => rfl
  | fuel + 1, ents, i, h => by
    unfold forRemoveLoop
    split
    · next hlt =>
      rw [if_neg (h _ (ents.get_mem i hlt))]
      exact forRemoveLoop_no_match hashes fuel ents (i + 1) h
    · rfl

/-- C1 — failing input for the dedup claim: incident `Inc` carries one
alert `A` whose entities are `E1`, `E2`, and lists the same two entities
(same hashes) directly. `_dedupe_entities` iterates over the list it is
removing from, so after removing `E1` the iterator skips `E2`; the
surviving `E2` is then inserted under the incident and
`_add_incident_node` links `E2` directly to `Inc`, although alert `A`
already introduced it — contrary to the claim (and to the function's own
"Deduplicate incident and alert entities" contract). The entity still has
exactly one node; the spurious extra is the direct incident link. -/
theorem c1_dedupe_skips_second_duplicate :
    dedupeEntities [⟨"A", [⟨"E1", 1⟩, ⟨"E2", 2⟩]⟩] [⟨"E1", 1⟩, ⟨"E2", 2⟩]
      = [⟨"E2", 2⟩] ∧
    (addIncidentNode emptyGraph
      ⟨"Inc", [⟨"A", [⟨"E1", 1⟩, ⟨"E2", 2⟩]⟩], [⟨"E1", 1⟩, ⟨"E2", 2⟩]⟩).2
      = none ∧
    countNodes
      (addIncidentNode emptyGraph
        ⟨"Inc", [⟨"A", [⟨"E1", 1⟩, ⟨"E2", 2⟩]⟩], [⟨"E1", 1⟩, ⟨"E2", 2⟩]⟩).1
      "E2" = 1 ∧
    hasEdge
      (addIncidentNode emptyGraph
        ⟨"Inc", [⟨"A", [⟨"E1", 1⟩, ⟨"E2", 2⟩]⟩], [⟨"E1", 1⟩, ⟨"E2", 2⟩]⟩).1
      "A" "E2" = true ∧
    hasEdge
      (addIncidentNode emptyGraph
        ⟨"Inc", [⟨"A", [⟨"E1", 1⟩, ⟨"E2", 2⟩]⟩], [⟨"E1", 1⟩, ⟨"E2", 2⟩]⟩).1
      "Inc" "E2" = true ∧
    hasEdge
      (addIncidentNode emptyGraph
        ⟨"Inc", [⟨"A", [⟨"E1", 1⟩, ⟨"E2", 2⟩]⟩], [⟨"E1", 1⟩, ⟨"E2", 2⟩]⟩).1
      "Inc" "E1" = false := by
  decide

/-- C2 counterexample — the claim "an incident's `Entities` list is never
mutated" fails: for an incident directly listing the entity its alert
already carries, `_dedupe_entities` removes that entity from the
incident's own list in place, so after `_add_incident_node` the incident
object has changed. -/
theorem c2_incident_entities_mutated :
    incidentAfterAdd ⟨"Inc", [⟨"A", [⟨"E1", 1⟩]⟩], [⟨"E1", 1⟩]⟩
      ≠ ⟨"Inc", [⟨"A", [⟨"E1", 1⟩]⟩], [⟨"E1", 1⟩]⟩ := by
  decide

/-- C2 amended — inputs are read-only except for the incident's
`Entities` list, which `_dedupe_entities` prunes in place; it is left
unchanged exactly when the direct entities share no content hash with the
alert entities: under that condition the incident object survives
`_add_incident_node` unmodified. -/
theorem c2_no_mutation_without_hash_overlap (inc : PyIncident)
    (h : ∀ e ∈ inc.Entities, e.phash ∉ alertEntityHashes inc.Alerts) :
    incidentAfterAdd inc = inc := by
  have hd : dedupeEntities inc.Alerts inc.Entities = inc.Entities :=
    forRemoveLoop_no_match _ _ _ _ h
  simp [incidentAfterAdd, hd]

/-- C7 — `to_df` yields one row per node, positionally matching the node
list, with the six columns of `DFRow`; every parsed date becomes a
timezone-aware timestamp (UTC substituted when the parser returns a naive
value, the parser's zone kept otherwise); an unset `EndTime` gives a
missing value; and a literal `"None"` placeholder in an object cell is
normalized to missing, so no object cell ever holds the placeholder. -/
theorem c7_to_df_rows (parse : String → DateTimeTz) (g : Graph) :
    (toDf parse g).length = g.nodes.length ∧
    (∀ i (hi : i < g.nodes.length) (hj : i < (toDf parse g).length),
      (toDf parse g).get ⟨i, hj⟩ = toDfRow parse (g.nodes.get ⟨i, hi⟩).2) ∧
    (∀ s, ∃ dt, convertToTzAwareTs parse (some s) = some dt ∧
      dt.tzinfo ≠ none ∧
      ((parse s).tzinfo = none → dt = { parse s with tzinfo := some 0 }) ∧
      ((parse s).tzinfo ≠ none → dt = parse s)) ∧
    (∀ a : NodeAttrs,
      (a.EndTime = none → (toDfRow parse a).EndTime = none) ∧
      (a.Name = some "None" → (toDfRow parse a).Name = none) ∧
      (a.Description = some "None" → (toDfRow parse a).Description = none) ∧
      (a.Type' = some "None" → (toDfRow parse a).Type' = none) ∧
      (toDfRow parse a).Name ≠ some "None" ∧
      (toDfRow parse a).Description ≠ some "None" ∧
      (toDfRow parse a).Type' ≠ some "None") := by
  refine ⟨by simp [toDf], fun i hi hj => by simp [toDf], fun s => ?_, fun a => ?_⟩
  · by_cases hz : (parse s).tzinfo = none
    · exact ⟨{ parse s with tzinfo := some 0 },
        by simp [convertToTzAwareTs, hz], by simp, fun _ => rfl,
        fun h => absurd hz h⟩
    · exact ⟨parse s, by simp [convertToTzAwareTs, hz], hz,
        fun h => absurd h hz, fun _ => rfl⟩
  · refine ⟨fun h => by simp [toDfRow, h, convertToTzAwareTs],
      fun h => by simp [toDfRow, replaceNoneCell, h],
      fun h => by simp [toDfRow, replaceNoneCell, h],
      fun h => by simp [toDfRow, replaceNoneCell, h], ?_, ?_, ?_⟩ <;>
      · simp only [toDfRow, replaceNoneCell]
        split
        · simp
        · assumption

/-- Witness for C7: on a one-node graph whose node carries the `"None"`
placeholder as name and no `EndTime`, the produced table has one row, a
missing name and a missing end time, and a parsed date carries a zone. -/
theorem c7_to_df_rows_witness :
    (toDf sampleParse { nodes := [("None", { Name := some "None" })] }).length = 1 ∧
    (toDfRow sampleParse { Name := some "None" }).Name = none ∧
    (toDfRow sampleParse { Name := some "None" }).EndTime = none ∧
    (∃ dt, convertToTzAwareTs sampleParse (some "2021-01-01") = some dt ∧
      dt.tzinfo ≠ none) := by
  have h := c7_to_df_rows sampleParse { nodes := [("None", { Name := some "None" })] }
  obtain ⟨dt, h1, h2, -, -⟩ := h.2.2.1 "2021-01-01"
  exact ⟨h.1, (h.2.2.2 { Name := some "None" }).2.1 rfl,
    (h.2.2.2 { Name := some "None" }).1 rfl, dt, h1, h2⟩

/-- C10 — a node having `TimeGenerated` but no `StartTime` gets its
`StartTime` cell filled with the converted `TimeGenerated` value, not a
missing marker (`node.get("StartTime", node.get("TimeGenerated"))`). -/
theorem c10_start_time_falls_back_to_time_generated
    (parse : String → DateTimeTz) (g : Graph) (i : Nat) (s : String)
    (hi : i < g.nodes.length)
    (hst : (g.nodes.getD i ("", {})).2.StartTime = none)
    (htg : (g.nodes.getD i ("", {})).2.TimeGenerated = some s) :
    ((toDf parse g).getD i noRow).StartTime =
      convertToTzAwareTs parse (some s) ∧
    ((toDf parse g).getD i noRow).StartTime ≠ none := by
  have hlen : i < (toDf parse g).length := by simpa [toDf] using hi
  have hrow : (toDf parse g).getD i noRow = toDfRow parse (g.nodes.get ⟨i, hi⟩).2 := by
    rw [List.getD_eq_get _ _ hlen]
    simp [toDf]
  have hget : g.nodes.getD i ("", {}) = g.nodes.get ⟨i, hi⟩ :=
    List.getD_eq_get _ _ hi
  rw [hget] at hst htg
  have hstart : ((g.nodes.get ⟨i, hi⟩).2.StartTime.orElse
      fun _ => (g.nodes.get ⟨i, hi⟩).2.TimeGenerated) = some s := by
    rw [hst, htg]; rfl
  constructor
  · rw [hrow]
    show convertToTzAwareTs parse ((g.nodes.get ⟨i, hi⟩).2.StartTime.orElse
      fun _ => (g.nodes.get ⟨i, hi⟩).2.TimeGenerated) = _
    rw [hstart]
  · rw [hrow]
    show convertToTzAwareTs parse ((g.nodes.get ⟨i, hi⟩).2.StartTime.orElse
      fun _ => (g.nodes.get ⟨i, hi⟩).2.TimeGenerated) ≠ none
    rw [hstart]
    simp only [convertToTzAwareTs]
    split <;> simp

/-- Witness for C10: a node with `TimeGenerated` `"t1"` and no
`StartTime` yields that converted timestamp in the `StartTime` cell. -/
theorem c10_start_time_falls_back_witness :
    ((toDf sampleParse { nodes := [("N", { TimeGenerated := some "t1" })] }).getD 0 noRow).StartTime =
      convertToTzAwareTs sampleParse (some "t1") ∧
    ((toDf sampleParse { nodes := [("N", { TimeGenerated := some "t1" })] }).getD 0 noRow).StartTime ≠ none :=
  c10_start_time_falls_back_to_time_generated sampleParse
    { nodes := [("N", { TimeGenerated := some "t1" })] } 0 "t1"
    (by decide) rfl rfl

/-- Witness for the amended C2: an incident whose direct entity `E3` does
not appear in its alert is left unchanged. -/
theorem c2_no_mutation_without_hash_overlap_witness :
    incidentAfterAdd ⟨"Inc", [⟨"A", [⟨"E1", 1⟩]⟩], [⟨"E3", 3⟩]⟩
      = ⟨"Inc", [⟨"A", [⟨"E1", 1⟩]⟩], [⟨"E3", 3⟩]⟩ :=
  c2_no_mutation_without_hash_overlap _ (by decide)

lemma foldl_bindE_error (name : String) (ts : List String) (g : Graph)
    (e : GraphError) :
    ts.foldl (fun acc link => bindE acc (fun g => add_link g name link))
      (g, some e) = (g, some e) := by
  induction ts with
  | nil => rfl
  | cons t ts ih => simpa [bindE] using ih

lemma linkAll_cons (g : Graph) (name t : String) (ts : List String) :
    linkAll g name (t :: ts) =
      match add_link g name t with
      | (g', none) => linkAll g' name ts
      | (g', some e) => (g', some e) := by
  show List.foldl _ (bindE (g, none) fun g => add_link g name t) ts = _
  rcases hadd : add_link g name t with ⟨g', err⟩
  cases err with
  | none =>
    show List.foldl _ (add_link g name t) ts = _
    rw [hadd]
    rfl
  | some e =>
    show List.foldl _ (add_link g name t) ts = _
    rw [hadd]
    exact foldl_bindE_error name ts g' e

lemma hasEdge_linkAll_mono (name : String) :
    ∀ (ts : List String) (g : Graph) (a b : String),
      hasEdge g a b = true → hasEdge (linkAll g name ts).1 a b = true
  | [], _, _, _, h => h
  | t :: ts, g, a, b, h => by
    rw [linkAll_cons]
    rcases hadd : add_link g name t with ⟨g', err⟩
    have h' : hasEdge g' a b = true := by
      have hm := hasEdge_add_link_mono g name t h
      rwa [hadd] at hm
    cases err with
    | none => exact hasEdge_linkAll_mono name ts g' a b h'
    | some e => exact h'

lemma linkAll_stops_at_absent (name : String) :
    ∀ (targets : List String) (g : Graph) (k : Nat),
      hasNode g name = true → k < targets.length →
      hasNode g (targets.getD k "") = false →
      (∀ j, j < k → hasNode g (targets.getD j "") = true) →
      (linkAll g name targets).2 =
        some (GraphError.missingNodes [targets.getD k ""]) ∧
      (linkAll g name targets).1.nodes = g.nodes ∧
      (∀ j, j < k →
        hasEdge (linkAll g name targets).1 name (targets.getD j "") = true)
  | [], _, k, _, hk, _, _ => absurd hk (by simp)
  | t :: ts, g, 0, hname, _, habs, _ => by
    have habs' : hasNode g t = false := by simpa using habs
    have hfail : add_link g name t = (g, some (.missingNodes [t])) := by
      simp [add_link, habs', hname]
    rw [linkAll_cons, hfail]
    exact ⟨by simp, rfl, fun j hj => absurd hj (Nat.not_lt_zero j)⟩
  | t :: ts, g, k + 1, hname, hk, habs, hbefore => by
    have ht : hasNode g t = true := by
      simpa using hbefore 0 (Nat.succ_pos k)
    have hstep : add_link g name t = (addEdge g name t, none) := by
      simp [add_link, hname, ht]
    rw [linkAll_cons, hstep]
    have IH := linkAll_stops_at_absent name ts (addEdge g name t) k
      (by rw [hasNode_addEdge]; exact hname)
      (by simpa using hk)
      (by rw [hasNode_addEdge]; simpa using habs)
      (fun j hj => by
        rw [hasNode_addEdge]
        simpa using hbefore (j + 1) (Nat.succ_lt_succ hj))
    refine ⟨by simpa using IH.1, by rw [IH.2.1, nodes_addEdge], fun j hj => ?_⟩
    cases j with
    | zero =>
      have he : hasEdge (addEdge g name t) name t = true :=
        hasEdge_addEdge_self g name t
      simpa using hasEdge_linkAll_mono name ts (addEdge g name t) name t he
    | succ j =>
      simpa using IH.2.2 j (Nat.lt_of_succ_lt_succ hj)

lemma hasNode_addNoteNode (g : Graph) (name : String) (d : Option String)
    (now : String) : hasNode (addNoteNode g name d now) name = true := by
  unfold addNoteNode
  split
  · next h =>
    simp only [hasNode, List.any_map, List.any_eq_true] at h ⊢
    obtain ⟨p, hp, hname⟩ := h
    refine ⟨p, hp, ?_⟩
    simp only [Function.comp_apply, hname]
    simpa using hname
  · simp [hasNode, List.any_append]

lemma find?_map_keyfix (name : String)
    (φ : String × NodeAttrs → String × NodeAttrs)
    (hid : ∀ p, (p.1 == name) = false → φ p = p)
    (hkey : ∀ p, ((φ p).1 == name) = (p.1 == name)) :
    ∀ l : List (String × NodeAttrs),
      (l.map φ).find? (fun p => p.1 == name) =
        (l.find? (fun p => p.1 == name)).map φ
  | [] => rfl
  | p :: l => by
    by_cases h : (p.1 == name) = true
    · rw [List.map_cons,
        List.find?_cons_of_pos (p := fun q : String × NodeAttrs => q.1 == name)
          _ ((hkey p).trans h),
        List.find?_cons_of_pos (p := fun q : String × NodeAttrs => q.1 == name)
          _ h]
      rfl
    · have h' : (p.1 == name) = false := by simpa using h
      rw [List.map_cons, hid p h',
        List.find?_cons_of_neg (p := fun q : String × NodeAttrs => q.1 == name)
          _ h,
        List.find?_cons_of_neg (p := fun q : String × NodeAttrs => q.1 == name)
          _ h]
      exact find?_map_keyfix name φ hid hkey l

lemma attrsOf_addNoteNode (g : Graph) (name : String) (d : Option String)
    (now : String) :
    ∃ a, attrsOf (addNoteNode g name d now) name = some a ∧
      a.Name = some name ∧ a.Type' = some "analystnote" ∧
      a.TimeGenerated = some now := by
  unfold addNoteNode attrsOf
  split
  · next h =>
    simp only [hasNode, List.any_eq_true] at h
    obtain ⟨p, hp, hpname⟩ := h
    have hsome : (g.nodes.find? (fun p => p.1 == name)).isSome := by
      rw [List.find?_isSome]
      exact ⟨p, hp, hpname⟩
    obtain ⟨q, hq⟩ := Option.isSome_iff_exists.mp hsome
    have hqT : (q.1 == name) = true :=
      List.find?_some (p := fun r : String × NodeAttrs => r.1 == name) hq
    rw [find?_map_keyfix name _
      (fun p hp => by simp only [hp, Bool.false_eq_true, if_false])
      (fun p => by split <;> rfl) g.nodes, hq]
    refine ⟨_, rfl, ?_, ?_, ?_⟩ <;> simp [hqT, mergeAttrs, noteAttrs]
  · next h =>
    have hnone : g.nodes.find? (fun p => p.1 == name) = none := by
      rw [List.find?_eq_none]
      intro p hp hpname
      exact h (by simp only [hasNode, List.any_eq_true]; exact ⟨p, hp, hpname⟩)
    rw [List.find?_append, hnone]
    simp [noteAttrs]

/-- C9 — `add_note` whose `attached_to` list names an absent node raises
a user error naming it, but the operation is not atomic: the note node
(Type `analystnote`, timestamped at insertion) has already been added and
remains, together with the links to every target processed before the
first absent one. -/
theorem c9_add_note_not_atomic (g : Graph) (name : String)
    (description : Option String) (targets : List String) (now : String)
    (k : Nat) (hk : k < targets.length)
    (habs : hasNode (addNoteNode g name description now) (targets.getD k "") = false)
    (hbefore : ∀ j, j < k →
      hasNode (addNoteNode g name description now) (targets.getD j "") = true) :
    (add_note g name description targets now).2 =
      some (GraphError.missingNodes [targets.getD k ""]) ∧
    hasNode (add_note g name description targets now).1 name = true ∧
    (∃ a, attrsOf (add_note g name description targets now).1 name = some a ∧
      a.Type' = some "analystnote" ∧ a.TimeGenerated = some now) ∧
    (∀ j, j < k →
      hasEdge (add_note g name description targets now).1 name
        (targets.getD j "") = true) := by
  have hname := hasNode_addNoteNode g name description now
  have hmain := linkAll_stops_at_absent name targets
    (addNoteNode g name description now) k hname hk habs hbefore
  obtain ⟨a, ha, haname, hatype, hatime⟩ :=
    attrsOf_addNoteNode g name description now
  have hnodes : (add_note g name description targets now).1.nodes =
      (addNoteNode g name description now).nodes := hmain.2.1
  refine ⟨hmain.1, ?_, ⟨a, ?_, hatype, hatime⟩, hmain.2.2⟩
  · show hasNode (add_note g name description targets now).1 name = true
    unfold hasNode
    rw [hnodes]
    exact hname
  · show attrsOf (add_note g name description targets now).1 name = some a
    unfold attrsOf
    rw [hnodes]
    exact ha

/-- Witness for C9: attaching a note to the present `X` and then the
absent `Zed` raises naming `Zed`, while the note node and its link to `X`
are already in place. -/
theorem c9_add_note_not_atomic_witness :
    (add_note { nodes := [("X", {})] } "note1" (some "d") ["X", "Zed"] "t0").2 =
      some (GraphError.missingNodes ["Zed"]) ∧
    hasNode (add_note { nodes := [("X", {})] } "note1" (some "d") ["X", "Zed"] "t0").1
      "note1" = true ∧
    hasEdge (add_note { nodes := [("X", {})] } "note1" (some "d") ["X", "Zed"] "t0").1
      "note1" "X" = true := by
  have h := c9_add_note_not_atomic { nodes := [("X", {})] } "note1" (some "d")
    ["X", "Zed"] "t0" 1 (by decide) (by decide) (by decide)
  exact ⟨h.1, h.2.1, by simpa using h.2.2.2 0 (by decide)⟩

/-- Witness for C4 on the two-node graph `{IncidentA, AlertB}` with no
edges. -/
theorem c4_add_remove_link_roundtrip_witness :
    (add_link { nodes := [("IncidentA", {}), ("AlertB", {})] } "IncidentA" "AlertB").2 = none ∧
    remove_link { nodes := [("IncidentA", {}), ("AlertB", {})] } "IncidentA" "AlertB" =
      ({ nodes := [("IncidentA", {}), ("AlertB", {})] },
        some (GraphError.missingEdge "IncidentA" "AlertB")) :=
  ⟨((c4_add_remove_link_roundtrip { nodes := [("IncidentA", {}), ("AlertB", {})] }
      "IncidentA" "AlertB").1 (by decide) (by decide)).1,
   (c4_add_remove_link_roundtrip { nodes := [("IncidentA", {}), ("AlertB", {})] }
      "IncidentA" "AlertB").2 (Or.inr (Or.inr (by decide)))⟩

end Msticpy
